import Mathlib

/-!
Verification of the size-targeted artifact generators of the `docx` repository.

The Python sources are shallowly embedded: byte strings become `List ℕ`
(each element a byte value), Python `int` becomes `ℤ` (with `Int.fdiv` for
Python's floor division `//`) or `ℕ` where the quantity is a count,
and the standard-library random source is modelled by an abstract stream
`σ : ℕ → ℕ` of draws; a primitive such as `randrange(0, k)` consumes one
draw `σ i` and reduces it modulo `k`, so every possible sequence of values
of the Python generator corresponds to some stream.
-/

/-- Bytes of an ASCII/Latin-1 Lean string literal, used to embed the Python
byte-string and `str.encode` literals of the sources. -/
def strBytes (s : String) : List ℕ := s.toList.map Char.toNat

/-- Character-wise lowercase, the embedding of Python `str.lower()` on the
ASCII unit names handled here. -/
def str_lower (s : String) : String := String.mk (s.data.map Char.toLower)

/-- Character-wise uppercase, the embedding of Python `str.upper()` on the
ASCII unit names handled here. -/
def str_upper (s : String) : String := String.mk (s.data.map Char.toUpper)

/-- Big-endian 4-byte serialization, the embedding of `struct.pack(">I", n)`
(the argument is reduced mod 2^32 as CPython requires of the packed value). -/
def be32 (n : ℕ) : List ℕ :=
  [n % 2 ^ 32 / 2 ^ 24, n % 2 ^ 24 / 2 ^ 16, n % 2 ^ 16 / 2 ^ 8, n % 2 ^ 8]

/-- Little-endian 2-byte serialization, the embedding of `struct.pack("<H", n)`. -/
def le16 (n : ℕ) : List ℕ := [n % 2 ^ 8, n % 2 ^ 16 / 2 ^ 8]

/-- Little-endian 4-byte serialization, the embedding of `struct.pack("<I", n)`
(and of `struct.pack("<i", n)` for the nonnegative values used here). -/
def le32 (n : ℕ) : List ℕ :=
  [n % 2 ^ 8, n % 2 ^ 16 / 2 ^ 8, n % 2 ^ 24 / 2 ^ 16, n % 2 ^ 32 / 2 ^ 24]

theorem strBytes_length (s : String) : (strBytes s).length = s.toList.length := by
  simp [strBytes]

theorem be32_length (n : ℕ) : (be32 n).length = 4 := rfl

theorem le16_length (n : ℕ) : (le16 n).length = 2 := rfl

theorem le32_length (n : ℕ) : (le32 n).length = 4 := rfl

/-- Floor-division bounds for `Int.fdiv`, the embedding of Python's `//`. -/
theorem fdiv_bounds (a b : ℤ) (hb : 0 < b) :
    b * (a.fdiv b) ≤ a ∧ a < b * (a.fdiv b) + b := by
  have hfm := Int.fdiv_add_fmod a b
  have h0 : 0 ≤ a.fmod b := by
    rw [Int.fmod_eq_emod _ (le_of_lt hb)]
    exact Int.emod_nonneg a (by omega)
  have h1 : a.fmod b < b := Int.fmod_lt_of_pos a hb
  omega

/-- Python floor division of a nonnegative value smaller than a positive
divisor is zero. -/
theorem fdiv_eq_zero_of_lt (a b : ℤ) (h0 : 0 ≤ a) (hab : a < b) : a.fdiv b = 0 := by
  have hb : 0 < b := lt_of_le_of_lt h0 hab
  obtain ⟨hl, hr⟩ := fdiv_bounds a b hb
  by_contra hne
  rcases lt_or_gt_of_ne hne with hlt | hgt
  · have : b * a.fdiv b + b ≤ b * 0 := by
      have : a.fdiv b + 1 ≤ 0 := by omega
      calc b * a.fdiv b + b = b * (a.fdiv b + 1) := by ring
        _ ≤ b * 0 := by exact mul_le_mul_of_nonneg_left this (le_of_lt hb)
    omega
  · have : b * 1 ≤ b * a.fdiv b := mul_le_mul_of_nonneg_left (by omega) (le_of_lt hb)
    omega

/-! ## Unit conversion (`to_bytes` in each script, and the `units` dict of
`create_big_text_file.py`) -/

/-- Embedding of `to_bytes` from `make_target_sized_docx.py` (lines 165-168):
`int(value * (1024 ** 3))` for `"gib"`, else `int(value * 1_000_000_000)`.
The size value is taken as a natural number, on which `int(value * c)` is
exactly `value * c`. -/
def mtsd_to_bytes (value : ℕ) (unit : String) : ℕ :=
  if str_lower unit = "gib" then value * 1024 ^ 3 else value * 1000000000

/-- Embedding of `to_bytes` from `create_big_docx_only_text.py` (lines 59-63). -/
def cbdot_to_bytes (value : ℕ) (unit : String) : ℕ :=
  if str_lower unit = "gib" then value * 1024 ^ 3
  else if str_lower unit = "mb" then value * 1000000
  else value * 1000000000

/-- Embedding of `to_bytes` from `make_png_set.py` (lines 90-94). -/
def mps_to_bytes (total : ℕ) (unit : String) : ℕ :=
  if str_lower unit = "gib" then total * 1024 ^ 3
  else if str_lower unit = "mb" then total * 1000000
  else total * 1000000000

/-- Embedding of `to_bytes` from `make_docx_all_visible_stdlib.py` (line 232-233). -/
def mdavs_to_bytes (value : ℕ) (unit : String) : ℕ :=
  if str_lower unit = "gib" then value * 1024 ^ 3 else value * 1000000000

/-- Embedding of `to_bytes` from `create_many_bmps.py` (lines 61-71). -/
def cmb_to_bytes (size_value : ℕ) (unit : String) : ℕ :=
  if str_lower unit = "gib" then size_value * 1024 ^ 3
  else if str_lower unit = "gb" then size_value * 1000000000
  else if str_lower unit = "mb" then size_value * 1000000
  else if str_lower unit = "mib" then size_value * 1024 ^ 2
  else size_value

/-- Embedding of the `units` dictionary lookup
`units.get(unit.upper(), units['GB'])` of `create_big_text_file.py` line 6:
`{'B': 1, 'KB': 1024, 'MB': 1024**2, 'GB': 1024**3}` with default `units['GB']`.
Both the `'GB'` key and the default yield `1024 ** 3`. -/
def cbtf_units (u : String) : ℕ :=
  if u = "B" then 1
  else if u = "KB" then 1024
  else if u = "MB" then 1024 ^ 2
  else 1024 ^ 3

/-- Embedding of `size_bytes = int(size * units.get(unit.upper(), units['GB']))`
(`create_big_text_file.py` line 7). -/
def cbtf_size_bytes (size : ℕ) (unit : String) : ℕ := size * cbtf_units (str_upper unit)

/-! ## Byte budgets (claim C3) -/

/-- Embedding of the budget stage of `make_docx` (`make_target_sized_docx.py`
lines 105-111): raises for `num_images < 1`, otherwise
`target_for_images = max(1, target_total_bytes - 600_000)` and
`per_image_target = max(1, target_for_images // num_images)`. -/
def mtsd_make_docx_budget (num_images target_total_bytes : ℤ) : Except String ℤ :=
  if num_images < 1 then Except.error "num_images must be >= 1"
  else
    let target_for_images := max 1 (target_total_bytes - 600000)
    Except.ok (max 1 (target_for_images.fdiv num_images))

/-- Embedding of `per_file_target = max(1, total_bytes // args.num_files)`
(`make_png_set.py` line 114). -/
def mps_per_file_target (total_bytes num_files : ℤ) : ℤ :=
  max 1 (total_bytes.fdiv num_files)

/-! ## PNG byte-format machinery

Shared shape of the PNG writers in `make_target_sized_docx.py`,
`make_docx_all_visible_stdlib.py` and `make_png_set.py`: an 8-byte
signature, then `_chunk` records, with the pixel data deflated at zlib
level 0 (stored blocks only). -/

/-- One bit-step of the reflected CRC-32 polynomial division, embedding the
effect of `binascii.crc32` one bit at a time. -/
def crc32_step (c : ℕ) : ℕ := if c % 2 = 1 then Nat.xor (c / 2) 0xEDB88320 else c / 2

/-- CRC-32 update for one input byte. -/
def crc32_byte (c b : ℕ) : ℕ := crc32_step^[8] (Nat.xor c (b % 256))

/-- Embedding of `_crc32`: `binascii.crc32(data) & 0xFFFFFFFF`. -/
def crc32 (data : List ℕ) : ℕ :=
  Nat.xor (data.foldl crc32_byte 0xFFFFFFFF) 0xFFFFFFFF

/-- Embedding of the Adler-32 checksum that `zlib.compress` appends. -/
def adler32 (data : List ℕ) : ℕ :=
  let p := data.foldl (fun ab c => ((ab.1 + c % 256) % 65521, (ab.2 + ab.1 + c % 256) % 65521))
    ((1, 0) : ℕ × ℕ)
  p.2 * 65536 + p.1

/-- Embedding of `_chunk(typ, data)`:
`struct.pack(">I", len(data)) + typ + data + struct.pack(">I", _crc32(typ + data))`. -/
def png_chunk (typ data : List ℕ) : List ℕ :=
  be32 data.length ++ typ ++ data ++ be32 (crc32 (typ ++ data))

def IHDRTy : List ℕ := strBytes "IHDR"

def IDATTy : List ℕ := strBytes "IDAT"

def IENDTy : List ℕ := strBytes "IEND"

def tEXtTy : List ℕ := strBytes "tEXt"

/-- Embedding of `PNG_SIG = b"\x89PNG\r\n\x1a\n"`. -/
def png_sig : List ℕ := [137, 80, 78, 71, 13, 10, 26, 10]

/-- IHDR payload `struct.pack(">IIBBBBB", width, height, 8, 2, 0, 0, 0)`
(8-bit truecolor RGB, no interlace). -/
def ihdr_data (w h : ℕ) : List ℕ := be32 w ++ be32 h ++ [8, 2, 0, 0, 0]

/-- Number of stored deflate blocks that zlib level 0 emits for `n` payload
bytes: full blocks carry 65535 bytes, and a final (possibly empty) block
carries the rest. -/
def nb_blocks (n : ℕ) : ℕ :=
  if n ≤ 65535 then 1 else 1 + nb_blocks (n - 65535)
termination_by n
decreasing_by omega

/-- Stored-mode deflate body: each block is a 5-byte header
(final flag, LEN, NLEN) followed by at most 65535 literal bytes. -/
def zlib_blocks (d : List ℕ) : List ℕ :=
  if d.length ≤ 65535 then
    [1, d.length % 256, d.length / 256, (65535 - d.length) % 256, (65535 - d.length) / 256] ++ d
  else
    ([0, 255, 255, 0, 0] ++ d.take 65535) ++ zlib_blocks (d.drop 65535)
termination_by d.length
decreasing_by simp [List.length_drop]; omega

/-- Embedding of `zlib.compress(bytes(raw), level=0)`: the 2-byte zlib header,
the stored blocks, and the Adler-32 of the payload. -/
def zlib_compress0 (d : List ℕ) : List ℕ :=
  [120, 1] ++ zlib_blocks d ++ be32 (adler32 d)

/-- Common assembly `b"".join([PNG_SIG, _chunk(b'IHDR', ihdr), _chunk(b'IDAT', idat), _chunk(b'IEND', b"")])`
with `idat = zlib.compress(raw, level=0)`. -/
def png_wrap (w h : ℕ) (raw : List ℕ) : List ℕ :=
  png_sig ++ png_chunk IHDRTy (ihdr_data w h) ++
    png_chunk IDATTy (zlib_compress0 raw) ++ png_chunk IENDTy []

theorem nb_blocks_pos (n : ℕ) : 1 ≤ nb_blocks n := by
  rw [nb_blocks]
  split <;> omega

theorem nb_blocks_mono : ∀ {n m : ℕ}, n ≤ m → nb_blocks n ≤ nb_blocks m := by
  intro n m h
  induction m using Nat.strong_induction_on generalizing n with
  | _ m ih =>
    rw [nb_blocks.eq_def m, nb_blocks.eq_def n]
    by_cases hm : m ≤ 65535
    · simp [Nat.le_trans h hm, hm]
    · simp only [hm, if_false]
      by_cases hn : n ≤ 65535
      · simp only [hn, if_true]
        have := nb_blocks_pos (m - 65535)
        omega
      · simp only [hn, if_false]
        have := ih (m - 65535) (by omega) (n := n - 65535) (by omega)
        omega

theorem zlib_blocks_length (d : List ℕ) :
    (zlib_blocks d).length = d.length + 5 * nb_blocks d.length := by
  suffices H : ∀ L (d : List ℕ), d.length = L →
      (zlib_blocks d).length = d.length + 5 * nb_blocks d.length from H d.length d rfl
  intro L
  induction L using Nat.strong_induction_on with
  | _ L ih =>
    intro d hL
    subst hL
    rw [zlib_blocks.eq_def, nb_blocks.eq_def]
    by_cases h : d.length ≤ 65535
    · simp [h]
    · have hrec := ih (d.drop 65535).length (by simp [List.length_drop]; omega)
        (d.drop 65535) rfl
      simp only [h, if_false, List.length_append, List.length_take, List.length_drop,
        List.length_cons, List.length_nil] at hrec ⊢
      omega

theorem png_chunk_length (typ data : List ℕ) :
    (png_chunk typ data).length = 8 + typ.length + data.length := by
  simp [png_chunk, be32]
  omega

theorem zlib_compress0_length (d : List ℕ) :
    (zlib_compress0 d).length = 6 + d.length + 5 * nb_blocks d.length := by
  simp [zlib_compress0, be32, zlib_blocks_length]
  omega

/-- Serialized PNG length as a function of the raw scanline byte count alone. -/
def png_len_of_raw (n : ℕ) : ℕ := 63 + n + 5 * nb_blocks n

theorem png_wrap_length (w h : ℕ) (raw : List ℕ) :
    (png_wrap w h raw).length = png_len_of_raw raw.length := by
  simp [png_wrap, png_chunk_length, png_len_of_raw, png_sig, IHDRTy, IDATTy, IENDTy,
    strBytes, ihdr_data, be32, zlib_compress0_length]
  omega

/-! ## PNG builders -/

/-- Embedding of `build_png_bytes` from `make_docx_all_visible_stdlib.py`
(lines 13-26): per row one filter byte 0 followed by `3 * width_px` bytes of
`rng.randrange(0, 256)`; the rng is the abstract draw stream `σ`, consumed
sequentially (`3 * width_px` draws per row). -/
def mdavs_build_png_bytes (width_px height_px : ℕ) (σ : ℕ → ℕ) : List ℕ :=
  let raw := ((List.range height_px).map
    (fun r => 0 :: (List.range (3 * width_px)).map
      (fun k => σ (r * (3 * width_px) + k) % 256))).flatten
  png_wrap width_px height_px raw

/-- Embedding of `build_png_bytes` from `make_target_sized_docx.py`
(lines 45-75). The pixel bytes there are `rng.randrange(0, 512)`; assigning a
value of 256..511 into the `bytearray` raises `ValueError`, modelled as
`none`. The draw stream is consumed exactly as in the stdlib variant. -/
def mtsd_build_png_bytes (width height : ℕ) (σ : ℕ → ℕ) : Option (List ℕ) :=
  let draws := (List.range (height * (3 * width))).map (fun k => σ k % 512)
  if draws.all (fun v => decide (v < 256)) then
    some (png_wrap width height
      (((List.range height).map
        (fun r => 0 :: (List.range (3 * width)).map
          (fun k => σ (r * (3 * width) + k) % 512))).flatten))
  else none

/-- Raw scanline buffer of `build_png_from_rows` (`make_png_set.py` lines
38-57): for each of `height` rows a filter byte 0 followed by the slice
`rows_rgb[off : off + row_len]` with `off = (r % period) * row_len`,
`row_len = 3 * width`, `period = len(rows_rgb) // row_len`. -/
def bpfr_raw (width : ℕ) (rows_rgb : List ℕ) (height : ℕ) : List ℕ :=
  ((List.range height).map
    (fun r => 0 :: ((rows_rgb.drop ((r % (rows_rgb.length / (3 * width))) * (3 * width))).take
      (3 * width)))).flatten

/-- Embedding of `build_png_from_rows` from `make_png_set.py` (lines 38-57). -/
def build_png_from_rows (width : ℕ) (rows_rgb : List ℕ) (height : ℕ) : List ℕ :=
  png_wrap width height (bpfr_raw width rows_rgb height)

theorem mdavs_build_png_bytes_length (w h : ℕ) (σ : ℕ → ℕ) :
    (mdavs_build_png_bytes w h σ).length = png_len_of_raw ((1 + 3 * w) * h) := by
  rw [mdavs_build_png_bytes, png_wrap_length]
  congr 1
  rw [List.length_flatten]
  rw [List.map_map]
  have : (List.length ∘ fun r => (0 : ℕ) :: (List.range (3 * w)).map
      (fun k => σ (r * (3 * w) + k) % 256)) = fun _ => 1 + 3 * w := by
    funext r
    simp [Function.comp]
    omega
  rw [this, List.map_const', List.sum_replicate]
  simp [List.length_range, mul_comm]

/-- Length of one row of `bpfr_raw`, a function of `rows_rgb.length` only. -/
def bpfr_row_len (width L r : ℕ) : ℕ :=
  1 + min (3 * width) (L - (r % (L / (3 * width))) * (3 * width))

theorem bpfr_raw_length (w : ℕ) (rows : List ℕ) (h : ℕ) :
    (bpfr_raw w rows h).length =
      ((List.range h).map (bpfr_row_len w rows.length)).sum := by
  rw [bpfr_raw, List.length_flatten, List.map_map]
  congr 1
  apply List.map_congr_left
  intro r _
  simp [bpfr_row_len, Function.comp, List.length_take, List.length_drop]
  omega

theorem build_png_from_rows_length (w : ℕ) (rows : List ℕ) (h : ℕ) :
    (build_png_from_rows w rows h).length =
      png_len_of_raw (((List.range h).map (bpfr_row_len w rows.length)).sum) := by
  rw [build_png_from_rows, png_wrap_length, bpfr_raw_length]

theorem build_png_from_rows_length_strict_mono (w : ℕ) (rows : List ℕ) (h : ℕ) :
    (build_png_from_rows w rows h).length < (build_png_from_rows w rows (h + 1)).length := by
  rw [build_png_from_rows_length, build_png_from_rows_length]
  have hsum : ((List.range (h + 1)).map (bpfr_row_len w rows.length)).sum =
      ((List.range h).map (bpfr_row_len w rows.length)).sum + bpfr_row_len w rows.length h := by
    rw [List.range_succ, List.map_append, List.sum_append]
    simp
  rw [hsum]
  have hpos : 1 ≤ bpfr_row_len w rows.length h := by simp [bpfr_row_len]
  have := nb_blocks_mono (n := ((List.range h).map (bpfr_row_len w rows.length)).sum)
    (m := ((List.range h).map (bpfr_row_len w rows.length)).sum + bpfr_row_len w rows.length h)
    (by omega)
  simp only [png_len_of_raw]
  omega

/-! ## PNG geometry searches -/

/-- Serialized length of the single-width PNGs as a function of width and
height: the raw buffer holds `height` rows of `1 + 3 * width` bytes. -/
def png_len (w h : ℕ) : ℕ := png_len_of_raw ((1 + 3 * w) * h)

/-- Search loop of `choose_png_height_for_size`
(`make_docx_all_visible_stdlib.py` lines 34-39):
`while len(png) < per_image_target and attempts < 100000` grow the height and
advance the seed, rebuilding the PNG. `S : seed → draw stream` models
`random.Random(seed)`; `fuel = 100000 - attempts`. -/
def mdavs_choose_loop (S : ℕ → ℕ → ℕ) (tgt w fuel h seed : ℕ) : ℕ × List ℕ :=
  let png := mdavs_build_png_bytes w h (S seed)
  if hc : png.length < tgt ∧ 0 < fuel then
    mdavs_choose_loop S tgt w (fuel - 1) (h + 1) (seed + 1)
  else (h, png)
termination_by fuel
decreasing_by omega

/-- Embedding of `choose_png_height_for_size` from
`make_docx_all_visible_stdlib.py` (lines 28-40):
`height_px = max(1, (per_image_target - base_overhead) // row_bytes)` with
`base_overhead = 100`, `row_bytes = 1 + 3 * width_px`, then the growth loop
from seed 1234 with at most 100000 attempts. -/
def mdavs_choose_png_height_for_size (S : ℕ → ℕ → ℕ) (per_image_target width_px : ℕ) :
    ℕ × List ℕ :=
  let row_bytes : ℤ := 1 + 3 * (width_px : ℤ)
  let height_px := (max 1 (((per_image_target : ℤ) - 100).fdiv row_bytes)).toNat
  mdavs_choose_loop S per_image_target width_px 100000 height_px 1234

/-- Search loop of `choose_png_geometry_for_size`
(`make_target_sized_docx.py` lines 89-95), which rebuilds with
`build_png_bytes` of that file; a `ValueError` from the builder propagates,
modelled by `none`. `fuel = 20000 - attempts`, so at `fuel = 0` the loop
condition `attempts < 20000` is false and the current png is returned. -/
def mtsd_choose_loop (S : ℕ → ℕ → ℕ) (tgt w : ℕ) : ℕ → ℕ → ℕ → Option (ℕ × List ℕ)
  | 0, h, seed =>
    match mtsd_build_png_bytes w h (S seed) with
    | none => none
    | some png => some (h, png)
  | fuel + 1, h, seed =>
    match mtsd_build_png_bytes w h (S seed) with
    | none => none
    | some png =>
      if png.length < tgt then mtsd_choose_loop S tgt w fuel (h + 1) (seed + 1)
      else some (h, png)

/-- Embedding of `choose_png_geometry_for_size` from
`make_target_sized_docx.py` (lines 78-95): `base_overhead = 100`,
`row_bytes = 1 + 3 * width`, `height = max(1, (per_image_target - 100) // row_bytes)`,
seed 1234, at most 20000 attempts. -/
def mtsd_choose_png_geometry_for_size (S : ℕ → ℕ → ℕ) (per_image_target width : ℕ) :
    Option (ℕ × List ℕ) :=
  let row_bytes : ℤ := 1 + 3 * (width : ℤ)
  let height := (max 1 (((per_image_target : ℤ) - 100).fdiv row_bytes)).toNat
  mtsd_choose_loop S per_image_target width 20000 height 1234

/-- Growth loop of `pick_geometry_for_target` (`make_png_set.py` lines
85-87): `while len(png) < per_file_target: height += 1; png = build_png_from_rows(...)`.
The loop has no attempt cap; it terminates because the length grows strictly
with the height. -/
def mps_pick_loop (width : ℕ) (period : List ℕ) (tgt h : ℕ) : ℕ × List ℕ :=
  let png := build_png_from_rows width period h
  if hlt : png.length < tgt then mps_pick_loop width period tgt (h + 1) else (h, png)
termination_by tgt - (build_png_from_rows width period h).length
decreasing_by
  have hlt2 : (build_png_from_rows width period h).length < tgt := hlt
  have := build_png_from_rows_length_strict_mono width period h
  omega

/-- Embedding of `pick_geometry_for_target` from `make_png_set.py` (lines
71-88): the random period is `rows_in_period` rows of `3 * width` bytes from
`secrets.token_bytes` (draw stream `σ`), `base_overhead = 150`,
`row_stride = 3 * width + 1`,
`height = max(rows_in_period, (per_file_target - 150) // row_stride)`,
then the uncapped growth loop. Returns `(height, period, png)`. -/
def pick_geometry_for_target (σ : ℕ → ℕ) (per_file_target width rows_in_period : ℕ) :
    ℕ × List ℕ × List ℕ :=
  let row_len := 3 * width
  let period := (List.range (rows_in_period * row_len)).map (fun k => σ k % 256)
  let row_stride := row_len + 1
  let height := (max (rows_in_period : ℤ)
    (((per_file_target : ℤ) - 150).fdiv row_stride)).toNat
  let hp := mps_pick_loop width period per_file_target height
  (hp.1, period, hp.2)

theorem mdavs_choose_loop_ge (S : ℕ → ℕ → ℕ) (tgt w : ℕ) :
    ∀ fuel h seed, tgt ≤ png_len w (h + fuel) →
      tgt ≤ (mdavs_choose_loop S tgt w fuel h seed).2.length := by
  intro fuel
  induction fuel with
  | zero =>
    intro h seed hpl
    rw [mdavs_choose_loop.eq_def]
    have hlen := mdavs_build_png_bytes_length w h (S seed)
    have : ¬ ((mdavs_build_png_bytes w h (S seed)).length < tgt ∧ 0 < 0) := by omega
    simp only [this, dif_neg, not_false_iff]
    simp only [png_len, Nat.add_zero] at hpl
    omega
  | succ f ih =>
    intro h seed hpl
    rw [mdavs_choose_loop.eq_def]
    have hlen := mdavs_build_png_bytes_length w h (S seed)
    by_cases hlt : (mdavs_build_png_bytes w h (S seed)).length < tgt
    · have hc : (mdavs_build_png_bytes w h (S seed)).length < tgt ∧ 0 < f + 1 := ⟨hlt, by omega⟩
      simp only [hc, dif_pos]
      have heq : h + 1 + f = h + (f + 1) := by omega
      exact ih (h + 1) (seed + 1) (by rw [heq]; exact hpl)
    · have hc : ¬ ((mdavs_build_png_bytes w h (S seed)).length < tgt ∧ 0 < f + 1) := by
        intro hcon; exact hlt hcon.1
      simp only [hc, dif_neg, not_false_iff]
      omega

theorem mps_pick_loop_ge (w : ℕ) (period : List ℕ) (tgt : ℕ) :
    ∀ h, tgt ≤ (mps_pick_loop w period tgt h).2.length := by
  have H : ∀ m h, tgt - (build_png_from_rows w period h).length ≤ m →
      tgt ≤ (mps_pick_loop w period tgt h).2.length := by
    intro m
    induction m with
    | zero =>
      intro h hm
      rw [mps_pick_loop.eq_def]
      have hge : ¬ (build_png_from_rows w period h).length < tgt := by omega
      simp only [hge, dif_neg, not_false_iff]
      omega
    | succ m ih =>
      intro h hm
      rw [mps_pick_loop.eq_def]
      by_cases hlt : (build_png_from_rows w period h).length < tgt
      · simp only [hlt, dif_pos]
        apply ih
        have := build_png_from_rows_length_strict_mono w period h
        omega
      · simp only [hlt, dif_neg, not_false_iff]
        omega
  intro h
  exact H (tgt - (build_png_from_rows w period h).length) h le_rfl

theorem mdavs_choose_png_height_for_size_ge (S : ℕ → ℕ → ℕ) (tgt w : ℕ) :
    tgt ≤ (mdavs_choose_png_height_for_size S tgt w).2.length := by
  simp only [mdavs_choose_png_height_for_size]
  apply mdavs_choose_loop_ge
  have hw : (0 : ℤ) ≤ (w : ℤ) := by positivity
  have hrowpos : (0 : ℤ) < 1 + 3 * (w : ℤ) := by omega
  obtain ⟨hl, hr⟩ := fdiv_bounds ((tgt : ℤ) - 100) (1 + 3 * (w : ℤ)) hrowpos
  set q := ((tgt : ℤ) - 100).fdiv (1 + 3 * (w : ℤ)) with hqdef
  set M := max 1 q with hMdef
  have hM1 : (1 : ℤ) ≤ M := le_max_left _ _
  have hqM : q ≤ M := le_max_right _ _
  have htn : ((M.toNat : ℤ)) = M := Int.toNat_of_nonneg (by omega)
  have hmul : (1 + 3 * (w : ℤ)) * q ≤ (1 + 3 * (w : ℤ)) * M :=
    mul_le_mul_of_nonneg_left hqM (by omega)
  have hnb := nb_blocks_pos ((1 + 3 * w) * (M.toNat + 100000))
  rw [png_len, png_len_of_raw]
  have key : (tgt : ℤ) ≤ 63 + (1 + 3 * (w : ℤ)) * ((M.toNat : ℤ) + 100000) := by
    have expand : (1 + 3 * (w : ℤ)) * ((M.toNat : ℤ) + 100000) =
        (1 + 3 * (w : ℤ)) * M + 100000 * (1 + 3 * (w : ℤ)) := by
      rw [htn]; ring
    rw [expand]
    linarith [hr, hmul, hw]
  have keyn : tgt ≤ 63 + (1 + 3 * w) * (M.toNat + 100000) := by
    zify
    linarith [key]
  omega

theorem pick_geometry_for_target_ge (σ : ℕ → ℕ) (tgt w rip : ℕ) :
    tgt ≤ (pick_geometry_for_target σ tgt w rip).2.2.length := by
  simp only [pick_geometry_for_target]
  apply mps_pick_loop_ge

/-! ## Random text synthesis (`create_big_docx_only_text.py`) -/

/-- Embedding of `SPACES = [" ", "  ", "   ", " ", "\t", " ", "    "]`
(line 56), as byte lists. -/
def SPACES : List (List ℕ) := [[32], [32, 32], [32, 32, 32], [32], [9], [32], [32, 32, 32, 32]]

/-- Embedding of `make_word` (lines 65-67): `n = rng.randint(3, 12)` then `n`
lowercase letters. Draw `σ i` picks `n`; draws `σ (i+1) .. σ (i+n)` pick the
letters from `ALPHA = string.ascii_lowercase`. Returns the word bytes and the
next draw cursor. -/
def make_word (σ : ℕ → ℕ) (i : ℕ) : List ℕ × ℕ :=
  let n := 3 + σ i % 10
  ((List.range n).map (fun k => 97 + σ (i + 1 + k) % 26), i + 1 + n)

/-- One burst of `make_random_text` (lines 79-84): `words` pairs of word and
`rng.choice(SPACES)`, then the trailing `"\n"`. The first component is the
burst's bytes, the second the advanced draw cursor. -/
def burst_words (σ : ℕ → ℕ) : ℕ → ℕ → List ℕ × ℕ
  | 0, i => ([10], i)
  | w + 1, i =>
    let wd := make_word σ i
    let sp := SPACES.getD (σ wd.2 % 7) []
    let rest := burst_words σ w (wd.2 + 1)
    (wd.1 ++ sp ++ rest.1, rest.2)

theorem burst_words_length_pos (σ : ℕ → ℕ) : ∀ w i, 1 ≤ (burst_words σ w i).1.length := by
  intro w
  induction w with
  | zero => intro i; simp [burst_words]
  | succ w ih =>
    intro i
    simp only [burst_words, List.length_append]
    have := ih ((make_word σ i).2 + 1)
    omega

/-- The overshoot loop of `make_random_text` (lines 74-87):
`while total < target_len` append a burst (`words = rng.randint(8, 18)`). -/
def mrt_loop (σ : ℕ → ℕ) (target : ℕ) (i total : ℕ) (acc : List ℕ) : List ℕ × ℕ :=
  if total < target then
    let w := 8 + σ i % 11
    let b := burst_words σ w (i + 1)
    mrt_loop σ target b.2 (total + b.1.length) (acc ++ b.1)
  else (acc, i)
termination_by target - total
decreasing_by
  have := burst_words_length_pos σ (8 + σ i % 11) (i + 1)
  omega

/-- Embedding of `make_random_text` (lines 69-91): overshoot with bursts,
then trim to exactly `target_len` (`text[:target_len]`); all characters are
ASCII so the byte length of `text.encode("ascii", "strict")` is the character
count. Returns the bytes and the advanced draw cursor. -/
def make_random_text (σ : ℕ → ℕ) (i target_len : ℕ) : List ℕ × ℕ :=
  let r := mrt_loop σ target_len i 0 []
  (r.1.take target_len, r.2)

theorem mrt_loop_length (σ : ℕ → ℕ) (target : ℕ) :
    ∀ m i total acc, target - total ≤ m → acc.length = total →
      target ≤ (mrt_loop σ target i total acc).1.length := by
  intro m
  induction m with
  | zero =>
    intro i total acc hm hacc
    rw [mrt_loop.eq_def]
    have : ¬ total < target := by omega
    simp only [this, if_false]
    omega
  | succ m ih =>
    intro i total acc hm hacc
    rw [mrt_loop.eq_def]
    by_cases hlt : total < target
    · simp only [hlt, if_true]
      have hb := burst_words_length_pos σ (8 + σ i % 11) (i + 1)
      exact ih _ _ _ (by omega) (by simp [hacc])
    · simp only [hlt, if_false]
      omega

theorem make_random_text_length (σ : ℕ → ℕ) (i target_len : ℕ) :
    (make_random_text σ i target_len).1.length = target_len := by
  have h := mrt_loop_length σ target_len (target_len - 0) i 0 [] le_rfl rfl
  simp only [make_random_text, List.length_take]
  omega

theorem make_word_ascii (σ : ℕ → ℕ) (i : ℕ) :
    ∀ b ∈ (make_word σ i).1, b < 128 := by
  intro b hb
  simp only [make_word, List.mem_map, List.mem_range] at hb
  obtain ⟨k, _, hk⟩ := hb
  omega

theorem burst_words_ascii (σ : ℕ → ℕ) :
    ∀ w i, ∀ b ∈ (burst_words σ w i).1, b < 128 := by
  intro w
  induction w with
  | zero =>
    intro i b hb
    simp only [burst_words, List.mem_singleton] at hb
    omega
  | succ w ih =>
    intro i b hb
    simp only [burst_words, List.mem_append] at hb
    rcases hb with (hb | hb) | hb
    · exact make_word_ascii σ i b hb
    · have hsp : SPACES.getD (σ (make_word σ i).2 % 7) [] ∈ SPACES ∨
          SPACES.getD (σ (make_word σ i).2 % 7) [] = [] := by
        rcases Nat.lt_or_ge (σ (make_word σ i).2 % 7) SPACES.length with hlen | hlen
        · left
          rw [List.getD_eq_getElem _ _ hlen]
          exact List.getElem_mem hlen
        · right
          exact List.getD_eq_default _ _ hlen
      rcases hsp with hsp | hsp
      · have hall : ∀ l ∈ SPACES, ∀ x ∈ l, x < 128 := by decide
        exact hall _ hsp b hb
      · rw [hsp] at hb
        simp at hb
    · exact ih _ b hb

theorem mrt_loop_ascii (σ : ℕ → ℕ) (target : ℕ) :
    ∀ m i total acc, target - total ≤ m → (∀ b ∈ acc, b < 128) →
      ∀ b ∈ (mrt_loop σ target i total acc).1, b < 128 := by
  intro m
  induction m with
  | zero =>
    intro i total acc hm hacc
    rw [mrt_loop.eq_def]
    by_cases hlt : total < target
    · omega
    · simp only [hlt, if_false]
      exact hacc
  | succ m ih =>
    intro i total acc hm hacc
    rw [mrt_loop.eq_def]
    by_cases hlt : total < target
    · simp only [hlt, if_true]
      have hb := burst_words_length_pos σ (8 + σ i % 11) (i + 1)
      apply ih _ _ _ (by omega)
      intro b hmem
      rcases List.mem_append.mp hmem with hmem | hmem
      · exact hacc b hmem
      · exact burst_words_ascii σ _ _ b hmem
    · simp only [hlt, if_false]
      exact hacc

theorem make_random_text_ascii (σ : ℕ → ℕ) (i target_len : ℕ) :
    ∀ b ∈ (make_random_text σ i target_len).1, b < 128 := by
  intro b hb
  have := mrt_loop_ascii σ target_len (target_len - 0) i 0 [] le_rfl (by simp)
  exact this b (List.mem_of_mem_take hb)

/-! ## Paragraph chunks and the streamed document.xml
(`create_big_docx_only_text.py`) -/

/-- Embedding of `PARA_PREFIX = b'    <w:p><w:r><w:t xml:space="preserve">'`
(line 51). -/
def PARA_OPEN : List ℕ := strBytes "    <w:p><w:r><w:t xml:space=\"preserve\">"

/-- Embedding of `PARA_SUFFIX = b'</w:t></w:r></w:p>\n'` (line 52). -/
def PARA_CLOSE : List ℕ := strBytes "</w:t></w:r></w:p>\n"

/-- Embedding of `PARA_OVERHEAD = len(PARA_PREFIX) + len(PARA_SUFFIX)` (line 53). -/
def PARA_OVERHEAD : ℕ := PARA_OPEN.length + PARA_CLOSE.length

theorem PARA_OPEN_length : PARA_OPEN.length = 40 := by decide

theorem PARA_CLOSE_length : PARA_CLOSE.length = 19 := by decide

theorem PARA_OVERHEAD_eq : PARA_OVERHEAD = 59 := by decide

/-- Full-paragraph loop of `build_paragraph_chunk` (lines 100-105):
`while len(chunk) + PARA_OVERHEAD + para_text_bytes <= target_bytes` append
one paragraph `PARA_PREFIX + make_random_text(rng, para_text_bytes) + PARA_SUFFIX`. -/
def bpc_loop (σ : ℕ → ℕ) (target para : ℕ) (i : ℕ) (acc : List ℕ) : List ℕ × ℕ :=
  if h : acc.length + PARA_OVERHEAD + para ≤ target then
    let t := make_random_text σ i para
    bpc_loop σ target para t.2 (acc ++ PARA_OPEN ++ t.1 ++ PARA_CLOSE)
  else (acc, i)
termination_by target - acc.length
decreasing_by
  simp only [List.length_append]
  have hopen : 1 ≤ PARA_OPEN.length := by decide
  have h59 : PARA_OVERHEAD = PARA_OPEN.length + PARA_CLOSE.length := rfl
  omega

/-- Embedding of `build_paragraph_chunk` (lines 93-113): the clamp
`if para_text_bytes < 32: para_text_bytes = 32`, the full-paragraph loop,
then `remaining = target_bytes - len(chunk)` and, when
`remaining > PARA_OVERHEAD + 8`, one final paragraph with
`n_text = remaining - PARA_OVERHEAD` text bytes. -/
def build_paragraph_chunk (σ : ℕ → ℕ) (i target_bytes para_text_bytes : ℕ) : List ℕ × ℕ :=
  let para := if para_text_bytes < 32 then 32 else para_text_bytes
  let c := bpc_loop σ target_bytes para i []
  let remaining := target_bytes - c.1.length
  if PARA_OVERHEAD + 8 < remaining then
    let t := make_random_text σ c.2 (remaining - PARA_OVERHEAD)
    (c.1 ++ PARA_OPEN ++ t.1 ++ PARA_CLOSE, t.2)
  else c

theorem bpc_loop_le (σ : ℕ → ℕ) (target para : ℕ) :
    ∀ m i acc, target - acc.length ≤ m → acc.length ≤ target →
      (bpc_loop σ target para i acc).1.length ≤ target := by
  intro m
  induction m with
  | zero =>
    intro i acc hm hacc
    rw [bpc_loop.eq_def]
    by_cases h : acc.length + PARA_OVERHEAD + para ≤ target
    · have h59 : PARA_OVERHEAD = 59 := PARA_OVERHEAD_eq
      omega
    · simp only [h, dif_neg, not_false_iff]
      exact hacc
  | succ m ih =>
    intro i acc hm hacc
    rw [bpc_loop.eq_def]
    by_cases h : acc.length + PARA_OVERHEAD + para ≤ target
    · simp only [h, dif_pos]
      apply ih
      · simp only [List.length_append, make_random_text_length]
        have h59 : PARA_OVERHEAD = PARA_OPEN.length + PARA_CLOSE.length := rfl
        have hopen : 1 ≤ PARA_OPEN.length := by decide
        omega
      · simp only [List.length_append, make_random_text_length]
        have h59 : PARA_OVERHEAD = PARA_OPEN.length + PARA_CLOSE.length := rfl
        omega
    · simp only [h, dif_neg, not_false_iff]
      exact hacc

theorem build_paragraph_chunk_bounds (σ : ℕ → ℕ) (i target_bytes para_text_bytes : ℕ) :
    (build_paragraph_chunk σ i target_bytes para_text_bytes).1.length ≤ target_bytes ∧
      target_bytes - 67 ≤ (build_paragraph_chunk σ i target_bytes para_text_bytes).1.length := by
  simp only [build_paragraph_chunk]
  set para := if para_text_bytes < 32 then 32 else para_text_bytes with hpara
  have hc := bpc_loop_le σ target_bytes para (target_bytes - 0) i [] (by simp) (by simp)
  set c := bpc_loop σ target_bytes para i [] with hcdef
  by_cases hfit : PARA_OVERHEAD + 8 < target_bytes - c.1.length
  · simp only [hfit, if_pos]
    simp only [List.length_append, make_random_text_length]
    have h59 : PARA_OVERHEAD = 59 := PARA_OVERHEAD_eq
    have hopen : PARA_OPEN.length = 40 := PARA_OPEN_length
    have hclose : PARA_CLOSE.length = 19 := PARA_CLOSE_length
    omega
  · simp only [hfit, if_neg, not_false_iff]
    have h59 : PARA_OVERHEAD = 59 := PARA_OVERHEAD_eq
    omega

/-- Embedding of `DOC_HEAD` (`create_big_docx_only_text.py` lines 35-40). -/
def DOC_HEAD : List ℕ := strBytes
  "<?xml version=\"1.0\" encoding=\"UTF-8\" standalone=\"yes\"?>\n<w:document xmlns:w=\"http://schemas.openxmlformats.org/wordprocessingml/2006/main\"\n            xmlns:r=\"http://schemas.openxmlformats.org/officeDocument/2006/relationships\">\n  <w:body>\n    <w:p><w:r><w:t>Text-only generated document (randomized).</w:t></w:r></w:p>\n"

/-- Embedding of `DOC_TAIL` (`create_big_docx_only_text.py` lines 42-49). -/
def DOC_TAIL : List ℕ := strBytes
  "    <w:sectPr>\n      <w:pgSz w:w=\"11907\" w:h=\"16840\"/>\n      <w:pgMar w:top=\"1134\" w:right=\"1134\" w:bottom=\"1134\" w:left=\"1134\"\n               w:header=\"708\" w:footer=\"708\" w:gutter=\"0\"/>\n    </w:sectPr>\n  </w:body>\n</w:document>\n"

/-- Chunk-writing loop of `write_document_xml_stream` (lines 142-150):
`while remaining > 0`, `target_chunk = min(chunk_bytes, remaining)`, break if
`target_chunk <= PARA_OVERHEAD + 16`, else write a paragraph chunk and
decrease `remaining` by its length. Returns the bytes written by the loop. -/
def wdx_loop (σ : ℕ → ℕ) (chunk_bytes para_text_bytes : ℕ) (i remaining : ℕ) : List ℕ :=
  if h0 : 0 < remaining then
    if hbr : min chunk_bytes remaining ≤ PARA_OVERHEAD + 16 then []
    else
      let c := build_paragraph_chunk σ i (min chunk_bytes remaining) para_text_bytes
      c.1 ++ wdx_loop σ chunk_bytes para_text_bytes c.2 (remaining - c.1.length)
  else []
termination_by remaining
decreasing_by
  have hb : min chunk_bytes remaining - 67 ≤
      (build_paragraph_chunk σ i (min chunk_bytes remaining) para_text_bytes).1.length :=
    (build_paragraph_chunk_bounds σ i (min chunk_bytes remaining) para_text_bytes).2
  have hceq : c.1.length =
      (build_paragraph_chunk σ i (min chunk_bytes remaining) para_text_bytes).1.length := rfl
  have h59 : PARA_OVERHEAD = 59 := PARA_OVERHEAD_eq
  omega

/-- Embedding of `write_document_xml_stream` (lines 115-155): the bytes that
end up in the `word/document.xml` zip entry.
`budget_docxml = max(0, total_target_bytes - other_parts_bytes)` and
`remaining = max(0, budget_docxml - len(DOC_HEAD) - len(DOC_TAIL))` are the
Python expressions, with `max(0, a - b)` realized by truncated subtraction. -/
def write_document_xml_stream (σ : ℕ → ℕ)
    (total_target_bytes other_parts_bytes chunk_bytes para_text_bytes : ℕ) : List ℕ :=
  let budget_docxml := total_target_bytes - other_parts_bytes
  let remaining := budget_docxml - DOC_HEAD.length - DOC_TAIL.length
  DOC_HEAD ++ wdx_loop σ chunk_bytes para_text_bytes 0 remaining ++ DOC_TAIL

theorem wdx_loop_bounds (σ : ℕ → ℕ) (chunk_bytes para_text_bytes : ℕ)
    (hcb : 76 ≤ chunk_bytes) :
    ∀ m remaining i, remaining ≤ m →
      (wdx_loop σ chunk_bytes para_text_bytes i remaining).length ≤ remaining ∧
        remaining - 75 ≤ (wdx_loop σ chunk_bytes para_text_bytes i remaining).length := by
  intro m
  induction m with
  | zero =>
    intro remaining i hm
    rw [wdx_loop.eq_def]
    have h0 : ¬ 0 < remaining := by omega
    simp only [h0, dif_neg, not_false_iff]
    simp
    omega
  | succ m ih =>
    intro remaining i hm
    rw [wdx_loop.eq_def]
    by_cases h0 : 0 < remaining
    · simp only [h0, dif_pos]
      have h59 : PARA_OVERHEAD = 59 := PARA_OVERHEAD_eq
      by_cases hbr : min chunk_bytes remaining ≤ PARA_OVERHEAD + 16
      · simp only [hbr, dif_pos]
        constructor
        · simp
        · simp only [List.length_nil]
          omega
      · simp only [hbr, dif_neg, not_false_iff]
        obtain ⟨hcle, hcge⟩ :=
          build_paragraph_chunk_bounds σ i (min chunk_bytes remaining) para_text_bytes
        set c := build_paragraph_chunk σ i (min chunk_bytes remaining) para_text_bytes with hc
        have hrec := ih (remaining - c.1.length) c.2 (by omega)
        simp only [List.length_append]
        omega
    · simp only [h0, dif_neg, not_false_iff]
      simp only [List.length_nil]
      omega

theorem write_document_xml_stream_bounds (σ : ℕ → ℕ)
    (total_target_bytes other_parts_bytes chunk_bytes para_text_bytes : ℕ)
    (hcb : 76 ≤ chunk_bytes)
    (hfits : other_parts_bytes + DOC_HEAD.length + DOC_TAIL.length ≤ total_target_bytes) :
    (write_document_xml_stream σ total_target_bytes other_parts_bytes chunk_bytes
        para_text_bytes).length ≤ total_target_bytes - other_parts_bytes ∧
      total_target_bytes - other_parts_bytes - 75 ≤
        (write_document_xml_stream σ total_target_bytes other_parts_bytes chunk_bytes
          para_text_bytes).length := by
  simp only [write_document_xml_stream, List.length_append]
  obtain ⟨hle, hge⟩ := wdx_loop_bounds σ chunk_bytes para_text_bytes hcb
    (total_target_bytes - other_parts_bytes - DOC_HEAD.length - DOC_TAIL.length)
    (total_target_bytes - other_parts_bytes - DOC_HEAD.length - DOC_TAIL.length) 0 le_rfl
  omega

/-! ## Random text file (`create_big_text_file.py`) -/

/-- Embedding of
`chars = string.ascii_letters + string.digits + ".,<>/?;\'\\:\"|[]{}=+-_!@#$%^&*(), "`
(line 8); every character is one UTF-8 byte. -/
def cbtf_chars : List ℕ := strBytes
  "abcdefghijklmnopqrstuvwxyzABCDEFGHIJKLMNOPQRSTUVWXYZ0123456789.,<>/?;\x27\\:\"|[]\x7b\x7d=+-_!@#$%^&*(), "

/-- One line (line 17): 75 characters drawn by `random.choices(chars, k=75)`
plus the trailing newline; `written` advances by `len(line) = 76`. -/
def cbtf_line (σ : ℕ → ℕ) (i : ℕ) : List ℕ :=
  ((List.range 75).map (fun k => cbtf_chars.getD (σ (i + k) % cbtf_chars.length) 0)) ++ [10]

theorem cbtf_line_length (σ : ℕ → ℕ) (i : ℕ) : (cbtf_line σ i).length = 76 := by
  simp [cbtf_line]

/-- Write loop of `create_big_text_file` (lines 13-22): keep appending lines
while `written < size_bytes`, adding `len(line)` to `written` per line (the
batching by 100 lines groups the writes but does not change the bytes). -/
def cbtf_loop (σ : ℕ → ℕ) (size_bytes : ℕ) (i written : ℕ) (acc : List ℕ) : List ℕ :=
  if written < size_bytes then
    cbtf_loop σ size_bytes (i + 75) (written + (cbtf_line σ i).length) (acc ++ cbtf_line σ i)
  else acc
termination_by size_bytes - written
decreasing_by
  have := cbtf_line_length σ i
  omega

/-- Embedding of `create_big_text_file` (lines 5-22): the bytes written to the
file for a byte target `size_bytes` (the unit conversion is `cbtf_size_bytes`). -/
def create_big_text_file (σ : ℕ → ℕ) (size_bytes : ℕ) : List ℕ :=
  cbtf_loop σ size_bytes 0 0 []

theorem cbtf_loop_bounds (σ : ℕ → ℕ) (size_bytes : ℕ) :
    ∀ m written i acc, size_bytes - written ≤ m → acc.length = written →
      written ≤ size_bytes + 75 →
      (cbtf_loop σ size_bytes i written acc).length ≤ size_bytes + 75 ∧
        acc.length ≤ (cbtf_loop σ size_bytes i written acc).length ∧
        size_bytes ≤ max written (cbtf_loop σ size_bytes i written acc).length := by
  intro m
  induction m with
  | zero =>
    intro written i acc hm hacc hw
    rw [cbtf_loop.eq_def]
    have hge : ¬ written < size_bytes := by omega
    simp only [hge, if_false]
    omega
  | succ m ih =>
    intro written i acc hm hacc hw
    rw [cbtf_loop.eq_def]
    by_cases hlt : written < size_bytes
    · simp only [hlt, if_true]
      have hline := cbtf_line_length σ i
      obtain ⟨h1, h2, h3⟩ := ih (written + (cbtf_line σ i).length) (i + 75)
        (acc ++ cbtf_line σ i) (by omega) (by simp [hacc]) (by omega)
      refine ⟨h1, by simp at h2 ⊢; omega, ?_⟩
      simp only [List.length_append, hacc] at h2
      omega
    · simp only [hlt, if_false]
      omega

theorem create_big_text_file_bounds (σ : ℕ → ℕ) (size_bytes : ℕ) :
    size_bytes ≤ (create_big_text_file σ size_bytes).length ∧
      (create_big_text_file σ size_bytes).length ≤ size_bytes + 75 := by
  obtain ⟨h1, h2, h3⟩ := cbtf_loop_bounds σ size_bytes size_bytes 0 0 [] (by omega) rfl
    (by omega)
  rw [create_big_text_file]
  omega

/-! ## BMP generator (`create_many_bmps.py`) -/

/-- Embedding of `row_bytes = (width * 3 + 3) & ~3` (line 15): clearing the
two lowest bits of `width * 3 + 3`, i.e. subtracting its remainder mod 4. -/
def cmb_row_bytes (width : ℕ) : ℕ := (width * 3 + 3) - (width * 3 + 3) % 4

/-- Embedding of `make_bmp` (lines 10-57): the 54-byte
BITMAPFILEHEADER + BITMAPINFOHEADER followed by `height` rows of `width` BGR
triples from `random.randrange(256)` (draw stream `σ`) padded with zeros to
`row_bytes`. -/
def make_bmp (σ : ℕ → ℕ) (width height : ℕ) : List ℕ :=
  let row_bytes := cmb_row_bytes width
  let pixel_data_size := row_bytes * height
  let file_size := 54 + pixel_data_size
  let header :=
    [66, 77] ++ le32 file_size ++ [0, 0, 0, 0] ++ le32 54 ++
    le32 40 ++ le32 width ++ le32 height ++ le16 1 ++ le16 24 ++
    le32 0 ++ le32 pixel_data_size ++ le32 2835 ++ le32 2835 ++ le32 0 ++ le32 0
  let pixels := ((List.range height).map (fun y =>
    ((List.range (width * 3)).map (fun k => σ (y * (width * 3) + k) % 256)) ++
      List.replicate (row_bytes - width * 3) 0)).flatten
  header ++ pixels

/-- Embedding of `pixels_needed = max(1, (per_image_target - 54) // 3)`
(`create_many_bmps.py` line 90). -/
def cmb_pixels_needed (per_image_target : ℤ) : ℤ := max 1 ((per_image_target - 54).fdiv 3)

/-- Embedding of `side = int(pixels_needed ** 0.5)` (line 91); the float
square root truncated to an integer is modelled by the integer square root,
exact for the magnitudes the script handles. -/
def cmb_side (per_image_target : ℤ) : ℕ := Nat.sqrt (cmb_pixels_needed per_image_target).toNat

theorem cmb_row_bytes_ge (width : ℕ) : width * 3 ≤ cmb_row_bytes width := by
  have := Nat.mod_lt (width * 3 + 3) (y := 4) (by omega)
  rw [cmb_row_bytes]
  omega

theorem make_bmp_length (σ : ℕ → ℕ) (width height : ℕ) :
    (make_bmp σ width height).length = 54 + height * cmb_row_bytes width := by
  simp only [make_bmp, List.length_append, List.length_flatten, List.map_map]
  have hrow : (List.length ∘ fun y => ((List.range (width * 3)).map
      (fun k => σ (y * (width * 3) + k) % 256)) ++
        List.replicate (cmb_row_bytes width - width * 3) 0) =
      fun _ => cmb_row_bytes width := by
    funext y
    simp only [Function.comp, List.length_append, List.length_map, List.length_range,
      List.length_replicate]
    have := cmb_row_bytes_ge width
    omega
  rw [hrow, List.map_const', List.sum_replicate]
  simp [le16, le32, List.length_range]

/-! ## Stdlib DOCX assembly strings (`make_docx_all_visible_stdlib.py`) -/

/-- Zero-padded decimal rendering of the Python format `f"{i:05d}"` for
nonnegative `i`. -/
def fstring05d (i : ℕ) : String :=
  String.mk (List.replicate (5 - (toString i).length) '0') ++ toString i

/-- Embedding of `build_doc_rels` (lines 63-73) as the list of
`(Id, Target)` attribute pairs of the emitted `<Relationship>` elements:
`Id="rIdImg{i}"`, `Target="media/image{i:05d}.png"` for `i` in
`range(1, num_images + 1)`. -/
def build_doc_rels (num_images : ℕ) : List (String × String) :=
  (List.range num_images).map
    (fun k => ("rIdImg" ++ toString (k + 1), "media/image" ++ fstring05d (k + 1) ++ ".png"))

/-- Embedding of `build_document_xml` (lines 75-123) as the list of
`r:embed` attribute values of the emitted `<a:blip>` elements:
`r:embed="rIdImg{i}"` for `i` in `range(1, num_images + 1)`. -/
def build_document_xml_embeds (num_images : ℕ) : List String :=
  (List.range num_images).map (fun k => "rIdImg" ++ toString (k + 1))

/-- Embedding of the zip entry names written by `make_docx_all_visible`
(lines 168-186): the four fixed parts and
`f"word/media/image{i:05d}.png"` for `i` in `range(1, num_images + 1)`. -/
def make_docx_all_visible_entries (num_images : ℕ) : List String :=
  ["[Content_Types].xml", "_rels/.rels", "word/_rels/document.xml.rels",
    "word/document.xml"] ++
  (List.range num_images).map (fun k => "word/media/image" ++ fstring05d (k + 1) ++ ".png")

/-! ## Fixed-length tEXt chunk (`make_png_set.py`) -/

/-- Embedding of `fixed_len_text_chunk` (lines 59-65): pad short content with
spaces to `fixed_len`, truncate long content, then build a `tEXt` chunk over
`tag + b"\x00" + content` (the tag given as its latin-1 bytes). -/
def fixed_len_text_chunk (tag content_bytes : List ℕ) (fixed_len : ℕ) : List ℕ :=
  let cb := if content_bytes.length < fixed_len then
      content_bytes ++ List.replicate (fixed_len - content_bytes.length) 32
    else if fixed_len < content_bytes.length then content_bytes.take fixed_len
    else content_bytes
  png_chunk tEXtTy (tag ++ [0] ++ cb)

/-! ## Claim theorems -/

/-- C1 counterexample: `create_big_text_file` converts `1` with unit `'GB'`
to `1024 ** 3 = 1073741824` bytes, not to the decimal `1 * 1_000_000_000`
the claim asserts for every generator. -/
theorem C1_counterexample :
    cbtf_size_bytes 1 "GB" = 1073741824 ∧ cbtf_size_bytes 1 "GB" ≠ 1 * 1000000000 := by
  constructor
  · decide
  · decide

/-- C1 (amended): the `to_bytes` converters of the five container/image
generators interpret `'GB'` decimally (`value * 10^9`) and `'GiB'` binarily
(`value * 2^30`), and for every positive value the two interpretations are
never equal; `create_big_text_file` alone interprets `'GB'` (also its
default for unknown units) as the binary `1024 ** 3`. -/
theorem C1_gb_decimal_gib_binary (value : ℕ) (hv : 1 ≤ value) :
    mtsd_to_bytes value "GB" = value * 1000000000 ∧
    mtsd_to_bytes value "GiB" = value * 1073741824 ∧
    mtsd_to_bytes value "GB" ≠ mtsd_to_bytes value "GiB" ∧
    cbdot_to_bytes value "GB" = value * 1000000000 ∧
    cbdot_to_bytes value "GiB" = value * 1073741824 ∧
    mps_to_bytes value "GB" = value * 1000000000 ∧
    mps_to_bytes value "GiB" = value * 1073741824 ∧
    mdavs_to_bytes value "GB" = value * 1000000000 ∧
    mdavs_to_bytes value "GiB" = value * 1073741824 ∧
    cmb_to_bytes value "GB" = value * 1000000000 ∧
    cmb_to_bytes value "GiB" = value * 1073741824 ∧
    cbtf_size_bytes value "GB" = value * 1073741824 := by
  have hne : value * 1000000000 ≠ value * 1073741824 := by
    have hlt : value * 1000000000 < value * 1073741824 :=
      mul_lt_mul_of_pos_left (by norm_num) (by omega)
    omega
  refine ⟨?_, ?_, ?_, ?_, ?_, ?_, ?_, ?_, ?_, ?_, ?_, ?_⟩
  · unfold mtsd_to_bytes
    rw [if_neg (by decide)]
  · unfold mtsd_to_bytes
    rw [if_pos (by decide)]
    norm_num
  · unfold mtsd_to_bytes
    rw [if_neg (by decide), if_pos (by decide)]
    have : value * 1024 ^ 3 = value * 1073741824 := by norm_num
    rw [this]
    exact hne
  · unfold cbdot_to_bytes
    rw [if_neg (by decide), if_neg (by decide)]
  · unfold cbdot_to_bytes
    rw [if_pos (by decide)]
    norm_num
  · unfold mps_to_bytes
    rw [if_neg (by decide), if_neg (by decide)]
  · unfold mps_to_bytes
    rw [if_pos (by decide)]
    norm_num
  · unfold mdavs_to_bytes
    rw [if_neg (by decide)]
  · unfold mdavs_to_bytes
    rw [if_pos (by decide)]
    norm_num
  · unfold cmb_to_bytes
    rw [if_neg (by decide), if_pos (by decide)]
  · unfold cmb_to_bytes
    rw [if_pos (by decide)]
    norm_num
  · unfold cbtf_size_bytes cbtf_units
    rw [if_neg (by decide), if_neg (by decide), if_neg (by decide)]
    norm_num

/-- C1 witness: the amended statement instantiated at value 1. -/
theorem C1_witness :
    1 ≤ 1 ∧ (mtsd_to_bytes 1 "GB" = 1 * 1000000000 ∧
      mtsd_to_bytes 1 "GiB" = 1 * 1073741824 ∧
      mtsd_to_bytes 1 "GB" ≠ mtsd_to_bytes 1 "GiB" ∧
      cbdot_to_bytes 1 "GB" = 1 * 1000000000 ∧
      cbdot_to_bytes 1 "GiB" = 1 * 1073741824 ∧
      mps_to_bytes 1 "GB" = 1 * 1000000000 ∧
      mps_to_bytes 1 "GiB" = 1 * 1073741824 ∧
      mdavs_to_bytes 1 "GB" = 1 * 1000000000 ∧
      mdavs_to_bytes 1 "GiB" = 1 * 1073741824 ∧
      cmb_to_bytes 1 "GB" = 1 * 1000000000 ∧
      cmb_to_bytes 1 "GiB" = 1 * 1073741824 ∧
      cbtf_size_bytes 1 "GB" = 1 * 1073741824) :=
  ⟨by decide, C1_gb_decimal_gib_binary 1 (by decide)⟩

/-- C3 counterexample: with total target 100 bytes and 5 images the
insufficient-budget precondition `target - fixed_overhead < unit_count`
holds, yet `make_docx` computes `per_image_target = 1` and signals nothing. -/
theorem C3_counterexample :
    mtsd_make_docx_budget 5 100 = Except.ok 1 ∧ (100 : ℤ) - 600000 < 5 := by
  constructor
  · rfl
  · decide

/-- C3 (amended): when `target_bytes - fixed_overhead < unit_count` the
budget computations do not signal an InsufficientBudget condition; they
silently clamp the per-unit budget to the minimum of 1
(`max(1, ...)` in `make_docx` and in `make_png_set.main`). -/
theorem C3_budget_clamps :
    (∀ target n : ℤ, 1 ≤ n → target - 600000 < n →
      mtsd_make_docx_budget n target = Except.ok 1) ∧
    (∀ total nf : ℤ, 1 ≤ nf → total < nf → mps_per_file_target total nf = 1) := by
  constructor
  · intro target n hn hins
    simp only [mtsd_make_docx_budget]
    rw [if_neg (by omega)]
    have hval : max 1 ((max 1 (target - 600000)).fdiv n) = 1 := by
      by_cases hn1 : n = 1
      · subst hn1
        have hb := fdiv_bounds (max 1 (target - 600000)) 1 one_pos
        omega
      · have htfi1 : (1 : ℤ) ≤ max 1 (target - 600000) := le_max_left _ _
        have htfi2 : max 1 (target - 600000) < n := by omega
        rw [fdiv_eq_zero_of_lt _ _ (by omega) htfi2]
        omega
    rw [hval]
  · intro total nf hnf hlt
    simp only [mps_per_file_target]
    have hb := fdiv_bounds total nf (by omega)
    have hq : total.fdiv nf ≤ 1 := by
      by_contra hc
      push_neg at hc
      have : nf * 1 ≤ nf * total.fdiv nf := mul_le_mul_of_nonneg_left (by omega) (by omega)
      omega
    omega

/-- C3 witness: the amended statement instantiated at `(target, n) = (1000, 3)`
and `(total, num_files) = (2, 3)`. -/
theorem C3_witness :
    mtsd_make_docx_budget 3 1000 = Except.ok 1 ∧ mps_per_file_target 2 3 = 1 :=
  ⟨C3_budget_clamps.1 1000 3 (by decide) (by decide),
    C3_budget_clamps.2 2 3 (by decide) (by decide)⟩

/-- C4 (code bug): `build_png_bytes` of `make_target_sized_docx.py` draws
pixel bytes with `rng.randrange(0, 512)`; any draw of 256..511 makes the
`bytearray` assignment raise `ValueError`, so the function does not complete:
here the 1x1 build with a draw stream yielding 256 errors (`none`). -/
theorem C4_png_512_randrange_raises :
    mtsd_build_png_bytes 1 1 (fun _ => 256) = none := rfl

/-- C10: `fixed_len_text_chunk` always serializes to
`12 + len(tag) + 1 + fixed_len` bytes (4 length + 4 type + tag + NUL
separator + exactly `fixed_len` padded/truncated content bytes + 4 CRC), so
its size is independent of the supplied content. -/
theorem C10_fixed_len_text_chunk_size :
    (∀ (tag content : List ℕ) (fixed_len : ℕ),
      (fixed_len_text_chunk tag content fixed_len).length =
        12 + tag.length + 1 + fixed_len) ∧
    (∀ (tag : List ℕ) (fixed_len : ℕ) (c1 c2 : List ℕ),
      (fixed_len_text_chunk tag c1 fixed_len).length =
        (fixed_len_text_chunk tag c2 fixed_len).length) := by
  have hmain : ∀ (tag content : List ℕ) (L : ℕ),
      (fixed_len_text_chunk tag content L).length = 12 + tag.length + 1 + L := by
    intro tag content L
    simp only [fixed_len_text_chunk]
    rw [png_chunk_length]
    have hTy : tEXtTy.length = 4 := by decide
    by_cases h1 : content.length < L
    · simp only [h1, if_pos]
      simp only [List.length_append, List.length_cons, List.length_nil, List.length_replicate]
      omega
    · by_cases h2 : L < content.length
      · simp only [h1, h2, if_neg, if_pos, not_false_iff]
        simp only [List.length_append, List.length_cons, List.length_nil, List.length_take]
        omega
      · simp only [h1, h2, if_neg, not_false_iff]
        simp only [List.length_append, List.length_cons, List.length_nil]
        omega
  exact ⟨hmain, fun tag L c1 c2 => by rw [hmain, hmain]⟩

/-- C5: under the stored/no-compression encoding policy (zlib level 0,
filter byte 0 per row) the serialized PNG length for a fixed width and
height is independent of the random content: two row periods of equal
length, or two different draw streams (seeds), give byte-for-byte
identical lengths. -/
theorem C5_png_length_content_independent :
    (∀ (w h : ℕ) (rows1 rows2 : List ℕ), rows1.length = rows2.length →
      (build_png_from_rows w rows1 h).length = (build_png_from_rows w rows2 h).length) ∧
    (∀ (w h : ℕ) (σ1 σ2 : ℕ → ℕ),
      (mdavs_build_png_bytes w h σ1).length = (mdavs_build_png_bytes w h σ2).length) := by
  constructor
  · intro w h rows1 rows2 hlen
    rw [build_png_from_rows_length, build_png_from_rows_length, hlen]
  · intro w h σ1 σ2
    rw [mdavs_build_png_bytes_length, mdavs_build_png_bytes_length]

/-- C5 witness: equal-length periods `[0,0,0]` and `[7,8,9]` at width 1,
height 2, and two different draw streams for the stdlib builder. -/
theorem C5_witness :
    ([0, 0, 0] : List ℕ).length = ([7, 8, 9] : List ℕ).length ∧
    (build_png_from_rows 1 [0, 0, 0] 2).length = (build_png_from_rows 1 [7, 8, 9] 2).length ∧
    (mdavs_build_png_bytes 1 1 (fun _ => 0)).length =
      (mdavs_build_png_bytes 1 1 (fun _ => 7)).length :=
  ⟨by decide,
    C5_png_length_content_independent.1 1 2 [0, 0, 0] [7, 8, 9] (by decide),
    C5_png_length_content_independent.2 1 1 (fun _ => 0) (fun _ => 7)⟩

/-- C6: for every target length `n ≥ 1` and any random draw stream,
`make_random_text` returns a byte string of exactly `n` ASCII bytes
(overshoot with word/whitespace bursts, then trim to `n`). -/
theorem C6_make_random_text_exact (σ : ℕ → ℕ) (i n : ℕ) (hn : 1 ≤ n) :
    (make_random_text σ i n).1.length = n ∧
      ∀ b ∈ (make_random_text σ i n).1, b < 128 :=
  ⟨make_random_text_length σ i n, make_random_text_ascii σ i n⟩

/-- C6 witness: the statement instantiated at a concrete stream and `n = 5`. -/
theorem C6_witness :
    1 ≤ 5 ∧ ((make_random_text (fun _ => 0) 0 5).1.length = 5 ∧
      ∀ b ∈ (make_random_text (fun _ => 0) 0 5).1, b < 128) :=
  ⟨by decide, C6_make_random_text_exact (fun _ => 0) 0 5 (by decide)⟩

/-- C8 counterexample: for per-image target 78 bytes the chosen square side
is `int(sqrt((78-54)//3)) = 2`, whose BMP serializes to 70 bytes — less than
the target, refuting `54 + height * row_stride >= per_image_target`. -/
theorem C8_counterexample :
    (make_bmp (fun _ => 0) (cmb_side 78) (cmb_side 78)).length = 70 ∧ ¬ (78 ≤ 70) := by
  have h8 : (cmb_pixels_needed 78).toNat = 8 := by decide
  have hside : cmb_side 78 = 2 := by
    rw [cmb_side, h8]
    have h1 : 2 ≤ Nat.sqrt 8 := Nat.le_sqrt.mpr (by norm_num)
    have h2 : Nat.sqrt 8 < 3 := Nat.sqrt_lt.mpr (by norm_num)
    omega
  rw [hside]
  constructor
  · decide
  · decide

/-- C8 (amended): every BMP serializes to exactly `54 + height * row_stride`
bytes with `row_stride = 3 * width` rounded up to a multiple of 4 (1536 for
width 512); but the side chosen for a per-image target only guarantees
`54 + 3 * side^2 ≤ max(57, per_image_target)` — the floor of the square
root makes the file undershoot the target in general, so
`54 + height * row_stride ≥ per_image_target` does not hold. -/
theorem C8_bmp_size_equation :
    (∀ (σ : ℕ → ℕ) (w h : ℕ), (make_bmp σ w h).length = 54 + h * cmb_row_bytes w) ∧
    (∀ t : ℤ, 54 + 3 * (cmb_side t * cmb_side t) ≤ max 57 t.toNat) := by
  constructor
  · intro σ w h
    exact make_bmp_length σ w h
  · intro t
    obtain ⟨hl, hr⟩ := fdiv_bounds (t - 54) 3 (by norm_num)
    have hsq : cmb_side t * cmb_side t ≤ (max 1 ((t - 54).fdiv 3)).toNat := by
      simp only [cmb_side, cmb_pixels_needed]
      exact Nat.sqrt_le _
    set s2 := cmb_side t * cmb_side t with hs2
    omega

/-- C9: every relationship target declared in
`word/_rels/document.xml.rels` resolves (relative to the `word/` part
directory, per OPC resolution) to a zip entry actually written by
`make_docx_all_visible`, and every `r:embed` id used in
`word/document.xml` is a declared relationship id. -/
theorem C9_docx_references_resolve (n : ℕ) (hn : 1 ≤ n) :
    (∀ p ∈ build_doc_rels n, ("word/" ++ p.2) ∈ make_docx_all_visible_entries n) ∧
    (∀ e ∈ build_document_xml_embeds n, e ∈ (build_doc_rels n).map Prod.fst) := by
  constructor
  · intro p hp
    simp only [build_doc_rels, List.mem_map, List.mem_range] at hp
    obtain ⟨k, hk, rfl⟩ := hp
    simp only [make_docx_all_visible_entries, List.mem_append, List.mem_map, List.mem_range]
    right
    refine ⟨k, hk, ?_⟩
    rw [← String.append_assoc, ← String.append_assoc,
      show ("word/" ++ "media/image" : String) = "word/media/image" from rfl]
  · intro e he
    simp only [build_document_xml_embeds, List.mem_map, List.mem_range] at he
    obtain ⟨k, hk, rfl⟩ := he
    simp only [build_doc_rels, List.map_map, List.mem_map, List.mem_range, Function.comp]
    exact ⟨k, hk, rfl⟩

/-- C9 witness: the statement instantiated at one image. -/
theorem C9_witness :
    (∀ p ∈ build_doc_rels 1, ("word/" ++ p.2) ∈ make_docx_all_visible_entries 1) ∧
    (∀ e ∈ build_document_xml_embeds 1, e ∈ (build_doc_rels 1).map Prod.fst) :=
  C9_docx_references_resolve 1 (by decide)

/-- C2 counterexample: `create_big_text_file` with byte target 100 writes
152 bytes — two full 76-byte lines — exceeding the target, so the variable
content is not `<= target_bytes`. -/
theorem C2_counterexample :
    (create_big_text_file (fun _ => 0) 100).length = 152 ∧
      ¬ ((create_big_text_file (fun _ => 0) 100).length ≤ 100) := by
  have hlen : (create_big_text_file (fun _ => 0) 100).length = 152 := by
    rw [create_big_text_file]
    rw [cbtf_loop.eq_def]
    rw [if_pos (by norm_num)]
    rw [cbtf_line_length (fun _ => 0) 0]
    rw [cbtf_loop.eq_def]
    rw [if_pos (by norm_num)]
    rw [cbtf_line_length (fun _ => 0) (0 + 75)]
    rw [cbtf_loop.eq_def]
    rw [if_neg (by norm_num)]
    simp [cbtf_line_length]
  exact ⟨hlen, by omega⟩

/-- C2 (amended): the streamed `word/document.xml` part of the text-only
DOCX builder lands at-or-under its byte budget and at most 75 bytes below it
(for `chunk_bytes ≥ 76` and a budget of at least head plus tail);
`create_big_text_file`, however, lands at-or-over its byte target:
`size_bytes ≤ written ≤ size_bytes + 75`. -/
theorem C2_size_targeting_bounds :
    (∀ (σ : ℕ → ℕ) (tt op cb ptb : ℕ), 76 ≤ cb →
      op + DOC_HEAD.length + DOC_TAIL.length ≤ tt →
      (write_document_xml_stream σ tt op cb ptb).length ≤ tt - op ∧
        tt - op - 75 ≤ (write_document_xml_stream σ tt op cb ptb).length) ∧
    (∀ (σ : ℕ → ℕ) (s : ℕ), s ≤ (create_big_text_file σ s).length ∧
      (create_big_text_file σ s).length ≤ s + 75) :=
  ⟨fun σ tt op cb ptb hcb hfit =>
      write_document_xml_stream_bounds σ tt op cb ptb hcb hfit,
    fun σ s => create_big_text_file_bounds σ s⟩

set_option maxRecDepth 4000 in
/-- C2 witness: the document.xml stream at target 10000 with chunk size 500,
and the text file at target 100. -/
theorem C2_witness :
    (76 ≤ 500 ∧ 0 + DOC_HEAD.length + DOC_TAIL.length ≤ 10000) ∧
    ((write_document_xml_stream (fun _ => 0) 10000 0 500 4096).length ≤ 10000 - 0 ∧
      10000 - 0 - 75 ≤ (write_document_xml_stream (fun _ => 0) 10000 0 500 4096).length) ∧
    (100 ≤ (create_big_text_file (fun _ => 0) 100).length ∧
      (create_big_text_file (fun _ => 0) 100).length ≤ 100 + 75) :=
  ⟨⟨by decide, by decide⟩,
    C2_size_targeting_bounds.1 (fun _ => 0) 10000 0 500 4096 (by decide) (by decide),
    C2_size_targeting_bounds.2 (fun _ => 0) 100⟩

/-- C7 counterexample: the geometry search of `make_target_sized_docx.py`
need not return a PNG of any size: with per-image target 1, width 1, and a
draw stream whose `randrange(0, 512)` values are 256, `build_png_bytes`
raises inside the search (modelled `none`), so no `(height, png)` with
`len(png) >= target` is returned. -/
theorem C7_counterexample :
    mtsd_choose_png_geometry_for_size (fun _ _ => 256) 1 1 = none := rfl

/-- C7 (amended): the PNG geometry searches built on `randrange(0, 256)`
pixels do return a PNG whose serialized length is at least the per-image
byte target, for every target ≥ 1 and width ≥ 1:
`choose_png_height_for_size` (capped at 100000 attempts, cap never needed)
and `pick_geometry_for_target` (uncapped); the variant in
`make_target_sized_docx.py` instead propagates a `ValueError` whenever one
of its `randrange(0, 512)` draws exceeds 255. -/
theorem C7_png_geometry_meets_target :
    (∀ (S : ℕ → ℕ → ℕ) (tgt w : ℕ), 1 ≤ tgt → 1 ≤ w →
      tgt ≤ (mdavs_choose_png_height_for_size S tgt w).2.length) ∧
    (∀ (σ : ℕ → ℕ) (tgt w rip : ℕ), 1 ≤ tgt → 1 ≤ w →
      tgt ≤ (pick_geometry_for_target σ tgt w rip).2.2.length) :=
  ⟨fun S tgt w _ _ => mdavs_choose_png_height_for_size_ge S tgt w,
    fun σ tgt w rip _ _ => pick_geometry_for_target_ge σ tgt w rip⟩

/-- C7 witness: both geometry searches at target 1, width 1. -/
theorem C7_witness :
    (1 ≤ 1 ∧ 1 ≤ (mdavs_choose_png_height_for_size (fun _ _ => 0) 1 1).2.length) ∧
    1 ≤ (pick_geometry_for_target (fun _ => 0) 1 1 1).2.2.length :=
  ⟨⟨by decide, C7_png_geometry_meets_target.1 (fun _ _ => 0) 1 1 (by decide) (by decide)⟩,
    C7_png_geometry_meets_target.2 (fun _ => 0) 1 1 1 (by decide) (by decide)⟩
